import Mathlib

set_option maxRecDepth 4000

/-! Shallow embedding of the dependency conflict resolver in src/main.py.
Lines of text are modelled as lists of characters; a requirements file is
the list of its lines, each line given without its trailing newline
character. Subprocess invocations of pip are modelled by an outcome
parameter. -/

/-- A line of text, without its trailing newline character. -/
abbrev Line := List Char

/-- Whitespace characters removed by the Python str.strip method. -/
def isPySpace (c : Char) : Bool :=
  c == ' ' || c == '\t' || c == '\n' || c == '\r' || c == Char.ofNat 11 || c == Char.ofNat 12

/-- Python str.strip with no arguments: remove leading and trailing
whitespace from a line. -/
def pystrip (l : Line) : Line :=
  ((l.dropWhile isPySpace).reverse.dropWhile isPySpace).reverse

/-- Split a line at the first occurrence of a double equals sign, as the
Python split with separator of two equals signs and maxsplit one does in
the case where the separator occurs; none when it does not occur. -/
def splitEqEq : Line → Option (Line × Line)
  | [] => none
  | '=' :: '=' :: rest => some ([], rest)
  | c :: rest =>
    match splitEqEq rest with
    | some (a, b) => some (c :: a, b)
    | none => none

/-- True when the line begins with the comment marker. -/
def startsWithHash : Line → Bool
  | [] => false
  | c :: _ => c == '#'

/-- One parsed requirements record: optional package name, optional pinned
version, and the stored line, exactly the tuple built by
parse_requirements. -/
abbrev ParsedReq := Option Line × Option Line × Line

/-- Loop body of DependencyResolver.parse_requirements for one line. -/
def parseLine (line : Line) : ParsedReq :=
  let s := pystrip line
  if s.isEmpty || startsWithHash s then (none, none, s)
  else
    match splitEqEq s with
    | some (packagePart, versionPart) =>
      (some (pystrip (packagePart.takeWhile (fun c => c != '['))),
       some (pystrip versionPart), s)
    | none => (none, none, s)

/-- Embedding of DependencyResolver.parse_requirements. -/
def parse_requirements : List Line → List ParsedReq
  | [] => []
  | line :: rest => parseLine line :: parse_requirements rest

/-- The langchain ecosystem entry of known_combinations. -/
def langchain_ecosystem : List (Line × Line) :=
  [("google-generativeai".toList, "0.7.2".toList),
   ("langchain".toList, "0.2.16".toList),
   ("langchain-community".toList, "0.2.16".toList),
   ("langchain-google-genai".toList, "1.0.10".toList)]

/-- The django ecosystem entry of known_combinations. -/
def django_ecosystem : List (Line × Line) :=
  [("django".toList, "5.1.4".toList),
   ("djangorestframework".toList, "3.15.2".toList),
   ("django-cors-headers".toList, "4.4.0".toList),
   ("django-redis".toList, "5.4.0".toList)]

/-- The fastapi ecosystem entry of known_combinations. -/
def fastapi_ecosystem : List (Line × Line) :=
  [("fastapi".toList, "0.115.4".toList),
   ("uvicorn[standard]".toList, "0.32.0".toList),
   ("pydantic".toList, "2.10.3".toList)]

/-- Embedding of DependencyResolver.known_combinations, with the three
ecosystems in insertion order. -/
def known_combinations : List (Line × List (Line × Line)) :=
  [("langchain_ecosystem".toList, langchain_ecosystem),
   ("django_ecosystem".toList, django_ecosystem),
   ("fastapi_ecosystem".toList, fastapi_ecosystem)]

/-- Entries of the package dictionary built by apply_smart_fixes: the
records whose package name is truthy, in file order. -/
def dictEntries (records : List ParsedReq) : List (Line × Option Line × Line) :=
  records.filterMap (fun r =>
    match r with
    | (some p, v, l) => if p.isEmpty then none else some (p, v, l)
    | (none, _, _) => none)

/-- Association lookup where the last binding wins, matching how building
a Python dict from a sequence of pairs resolves duplicate keys. -/
def assocLast (pd : List (Line × Option Line × Line)) (k : Line) :
    Option (Option Line × Line) :=
  match pd with
  | [] => none
  | (k2, v, l) :: rest =>
    match assocLast rest k with
    | some r => some r
    | none => if k2 == k then some (v, l) else none

/-- Number of member packages of an ecosystem present in the package
dictionary, the size of the key-set intersection in apply_smart_fixes. -/
def presentCount (eco : List (Line × Line)) (pd : List (Line × Option Line × Line)) : Nat :=
  (eco.map Prod.fst).countP (fun k => (assocLast pd k).isSome)

/-- Inner check of the first pass of apply_smart_fixes: the package of a
table entry is present and its current version differs from the prescribed
one. -/
def memberDiffers (pd : List (Line × Option Line × Line)) (kv : Line × Line) : Bool :=
  match assocLast pd kv.1 with
  | some (cv, _) => cv != some kv.2
  | none => false

/-- First pass of apply_smart_fixes for one ecosystem: more than one member
package present, and some present member pinned to a version other than
the prescribed one. -/
def ecosystemNeedsFixes (eco : List (Line × Line)) (pd : List (Line × Option Line × Line)) : Bool :=
  decide (1 < presentCount eco pd) && eco.any (fun kv => memberDiffers pd kv)

/-- The fixes_needed flag computed by the first pass of apply_smart_fixes
over all ecosystems. -/
def fixesNeeded (pd : List (Line × Option Line × Line)) : Bool :=
  known_combinations.any (fun e => ecosystemNeedsFixes e.2 pd)

/-- Search the ecosystems in insertion order for a prescribed version of a
package, as the rebuild pass of apply_smart_fixes does. -/
def findFixedVersion (pkg : Line) : Option Line :=
  known_combinations.findSome? (fun e => List.lookup pkg e.2)

/-- Rebuild pass of apply_smart_fixes for one parsed record. -/
def rebuildRecord (r : ParsedReq) : Line :=
  match r with
  | (none, _, l) => l
  | (some pkg, ver, l) =>
    match findFixedVersion pkg with
    | none => l
    | some fv =>
      if ver == some fv then l
      else if l.contains '[' then
        match splitEqEq l with
        | some (basePkg, _) => basePkg ++ '=' :: '=' :: fv
        | none => l
      else pkg ++ '=' :: '=' :: fv

/-- Embedding of DependencyResolver.apply_smart_fixes: the returned flag
together with the resulting content of the requirements file. When no
fixes are needed the file is not written and keeps its previous content. -/
def apply_smart_fixes (file : List Line) : Bool × List Line :=
  let records := parse_requirements file
  let fn := fixesNeeded (dictEntries records)
  (fn, if fn then records.map rebuildRecord else file)

/-- Embedding of the removable_packages table, empty in the source. -/
def removable_packages : List (Line × Line) := []

/-- Membership of a parsed name among the keys of removable_packages. -/
def isRemovable (p : Option Line) : Bool :=
  match p with
  | none => false
  | some q => removable_packages.any (fun e => e.1 == q)

/-- Embedding of DependencyResolver.remove_problematic_packages: the
returned flag together with the resulting content of the requirements
file. The file is rewritten only when some package was removed. -/
def remove_problematic_packages (file : List Line) : Bool × List Line :=
  let records := parse_requirements file
  let removed := records.filter (fun r => isRemovable r.1)
  let kept := (records.filter (fun r => !isRemovable r.1)).map (fun r => r.2.2)
  (!removed.isEmpty, if removed.isEmpty then file else kept)

/-- Outcome of one pip dry run subprocess invocation: normal completion
with a return code and standard error text, a timeout, or an unexpected
exception. -/
inductive PipOutcome where
  | completed (rc : Int) (stderrText : Line)
  | timedOut
  | failed
deriving DecidableEq

/-- Character class of the first capture group of the conflict scraping
regular expression: letters, digits, underscore and hyphen. -/
def nameChar (c : Char) : Bool := c.isAlpha || c.isDigit || c == '_' || c == '-'

/-- Character class of the second capture group of the conflict scraping
regular expression: digits, dot and letters. -/
def versChar (c : Char) : Bool := c.isDigit || c == '.' || c.isAlpha

/-- Try the conflict scraping regular expression at the start of the text;
on success return the two captures and the length of the whole match. -/
def tryMatchPair (s : Line) : Option ((Line × Line) × Nat) :=
  if (s.takeWhile nameChar).isEmpty then none
  else
    match s.drop (s.takeWhile nameChar).length with
    | '=' :: '=' :: rest2 =>
      if (rest2.takeWhile versChar).isEmpty then none
      else some ((s.takeWhile nameChar, rest2.takeWhile versChar),
        (s.takeWhile nameChar).length + 2 + (rest2.takeWhile versChar).length)
    | '=' :: rest1 =>
      if (rest1.takeWhile versChar).isEmpty then none
      else some ((s.takeWhile nameChar, rest1.takeWhile versChar),
        (s.takeWhile nameChar).length + 1 + (rest1.takeWhile versChar).length)
    | _ => none

/-- All matches of the conflict scraping expression in a line, scanning
left to right as the Python findall does. -/
def findAllPairs (s : Line) : List (Line × Line) :=
  match s with
  | [] => []
  | c :: rest =>
    match h : tryMatchPair (c :: rest) with
    | some (p, n) => p :: findAllPairs ((c :: rest).drop n)
    | none => findAllPairs rest
termination_by s.length
decreasing_by
  · have hn : 0 < n := by
      unfold tryMatchPair at h
      split at h
      · exact absurd h (by simp)
      · split at h
        · split at h
          · exact absurd h (by simp)
          · simp only [Option.some.injEq, Prod.mk.injEq] at h
            omega
        · split at h
          · exact absurd h (by simp)
          · simp only [Option.some.injEq, Prod.mk.injEq] at h
            omega
        · exact absurd h (by simp)
    simp only [List.length_drop, List.length_cons]
    omega
  · simp

/-- Lower case a line, as the Python lower method does on ASCII text. -/
def toLowerLine (l : Line) : Line := l.map Char.toLower

/-- Substring containment, the Python in operator on strings. -/
def hasSubstr (hay needle : Line) : Bool :=
  match hay with
  | [] => needle.isEmpty
  | c :: rest => needle.isPrefixOf (c :: rest) || hasSubstr rest needle

/-- Split a text on newline characters, as the Python split method with
separator newline does. -/
def splitOnNl : Line → List Line
  | [] => [[]]
  | c :: rest =>
    match splitOnNl rest with
    | [] => [[]]
    | h :: t => if c == '\n' then [] :: h :: t else (c :: h) :: t

/-- A diagnostic line that triggers scraping in parse_conflict_output. -/
def lineIndicatesConflict (l : Line) : Bool :=
  hasSubstr (toLowerLine l) "conflict".toList ||
  hasSubstr (toLowerLine l) "cannot install".toList

/-- Mutable resolver state relevant to the claims: the list of scraped
conflict pairs. -/
structure ResolverState where
  conflictsFound : List (Line × Line)
deriving DecidableEq

/-- Fold of the loop of parse_conflict_output over the lines of the error
text, extending the accumulated conflict pairs. -/
def scrapeConflicts (acc : List (Line × Line)) (lines : List Line) : List (Line × Line) :=
  lines.foldl
    (fun acc2 line =>
      if lineIndicatesConflict line then
        if (findAllPairs line).isEmpty then acc2 else acc2 ++ findAllPairs line
      else acc2)
    acc

/-- Embedding of DependencyResolver.parse_conflict_output: extend the
scraped conflict pairs from the matching lines of the error text. -/
def parse_conflict_output (st : ResolverState) (errOutput : Line) : ResolverState :=
  { st with conflictsFound := scrapeConflicts st.conflictsFound (splitOnNl errOutput) }

/-- Embedding of DependencyResolver.check_for_conflicts, returning the
conflict flag together with the updated state. A zero return code means no
conflicts; any other completion scrapes the error text and reports
conflicts; a timeout or an unexpected exception reports conflicts. -/
def check_for_conflicts (st : ResolverState) (co : PipOutcome) : Bool × ResolverState :=
  match co with
  | .completed rc stderrText =>
    if rc == 0 then (false, st) else (true, parse_conflict_output st stderrText)
  | .timedOut => (true, st)
  | .failed => (true, st)

/-- Embedding of DependencyResolver.test_final_result: true exactly on
normal completion with return code zero. -/
def test_final_result (fo : PipOutcome) : Bool :=
  match fo with
  | .completed rc _ => rc == 0
  | .timedOut => false
  | .failed => false

/-- Observable steps of the resolve state machine. -/
inductive Event where
  | checkConflicts
  | backup
  | writeFile (content : List Line)
  | finalTest
deriving DecidableEq

/-- Result of one run of DependencyResolver.resolve: the sequence of
observable steps, the final content of the requirements file, the boolean
returned by resolve, and the final state. -/
structure ResolveResult where
  trace : List Event
  finalFile : List Line
  success : Bool
  state : ResolverState
deriving DecidableEq

/-- Embedding of DependencyResolver.resolve, parameterised by the outcomes
of the two pip dry run invocations. When the first check reports no
conflicts the method returns immediately; otherwise it creates the backup,
runs the removal step, applies the smart fixes and runs the final test. -/
def resolve (file : List Line) (co fo : PipOutcome) : ResolveResult :=
  let chk := check_for_conflicts ⟨[]⟩ co
  if chk.1 then
    let rem := remove_problematic_packages file
    let fix := apply_smart_fixes rem.2
    { trace := Event.checkConflicts :: Event.backup ::
        ((if rem.1 then [Event.writeFile rem.2] else []) ++
         (if fix.1 then [Event.writeFile fix.2] else []) ++ [Event.finalTest]),
      finalFile := fix.2,
      success := test_final_result fo,
      state := chk.2 }
  else
    { trace := [Event.checkConflicts], finalFile := file, success := true,
      state := chk.2 }

/-- Exit code of main, parameterised by whether the requirements file
exists, the test_only flag, the file content, and the pip outcomes. -/
def main_exit_code (fileExists testOnly : Bool) (file : List Line) (co fo : PipOutcome) : Nat :=
  if !fileExists then 1
  else if testOnly then (if (check_for_conflicts ⟨[]⟩ co).1 then 1 else 0)
  else if (resolve file co fo).success then 0 else 1

/-- Whether a conflict was ever reported during a run of main. -/
def conflictsEverPresent (fileExists : Bool) (co : PipOutcome) : Bool :=
  fileExists && (check_for_conflicts ⟨[]⟩ co).1

/-- Whether the final dry run was reached during a run of main and
succeeded. -/
def finalDryRunSucceeded (fileExists testOnly : Bool) (co fo : PipOutcome) : Bool :=
  fileExists && !testOnly && (check_for_conflicts ⟨[]⟩ co).1 && test_final_result fo

/-- Claim-side condition of C2, read from the claim text: some ecosystem
group has at least two member packages present and a parsed record for a
member whose pinned version differs from the prescribed one. -/
def ecosystemFixApplicable (eco : List (Line × Line)) (file : List Line) : Prop :=
  2 ≤ presentCount eco (dictEntries (parse_requirements file)) ∧
  ∃ kv ∈ eco, ∃ r ∈ parse_requirements file, r.1 = some kv.1 ∧ r.2.1 ≠ some kv.2

/-- Claim-side condition of C2: no ecosystem fix is applicable to the
file. -/
def noFixApplicable (file : List Line) : Prop :=
  ∀ e ∈ known_combinations, ¬ ecosystemFixApplicable e.2 file

/-- Write condition of the amended claim C1, as a proposition: some
ecosystem group has at least two member packages present and a member
whose effective pinned version, the last occurrence in the file, differs
from the prescribed one. -/
def fixesNeededProp (file : List Line) : Prop :=
  ∃ e ∈ known_combinations,
    2 ≤ presentCount e.2 (dictEntries (parse_requirements file)) ∧
    ∃ kv ∈ e.2, ∃ cv cl,
      assocLast (dictEntries (parse_requirements file)) kv.1 = some (cv, cl) ∧
      cv ≠ some kv.2

/-- Line rule of the amended claim C1: once a write is triggered, a line
whose stripped text pins a package that occurs in any ecosystem table with
a version other than the prescribed one is re-pinned to the prescribed
version, keeping everything before the separator, bracketed extras
included, and any other line appears stripped of surrounding whitespace. -/
def amendedRewriteLine (line : Line) : Line :=
  let s := pystrip line
  if s.isEmpty || startsWithHash s then s
  else
    match splitEqEq s with
    | none => s
    | some (before, after) =>
      match findFixedVersion (pystrip (before.takeWhile (fun c => c != '['))) with
      | none => s
      | some fv =>
        if pystrip after == fv then s
        else if s.contains '[' then before ++ '=' :: '=' :: fv
        else pystrip (before.takeWhile (fun c => c != '[')) ++ '=' :: '=' :: fv

/-- A file pinning two django ecosystem members at outdated versions and
one fastapi ecosystem member, the fastapi group having only this single
member present. -/
def mixed_groups_file : List Line :=
  ["django==4.0.0".toList, "djangorestframework==3.14.0".toList, "fastapi==0.100.0".toList]

/-- The end-to-end scenario file of C4. -/
def django_pair_file : List Line :=
  ["django==4.0.0".toList, "djangorestframework==3.14.0".toList]

/-- The rewritten content prescribed for the C4 scenario file. -/
def django_pair_fixed : List Line :=
  ["django==5.1.4".toList, "djangorestframework==3.15.2".toList]

/-- A file whose comment line carries leading whitespace, together with an
applicable django fix so that the file is rewritten. -/
def indented_comment_file : List Line :=
  ["  # pinned for deployment".toList, "django==4.0.0".toList,
   "djangorestframework==3.14.0".toList]

/-! Theorems. Helper lemmas come first, then one theorem per claim with
its witness or counterexample. -/

/-- The parser builds exactly one record per input line, in order. -/
theorem parse_requirements_eq_map (file : List Line) :
    parse_requirements file = file.map parseLine := by
  induction file with
  | nil => rfl
  | cons l rest ih => simp [parse_requirements, ih]

/-- The removal filter of remove_problematic_packages keeps nothing,
because the removable table is empty. -/
theorem removed_filter_nil (records : List ParsedReq) :
    records.filter (fun r => isRemovable r.1) = [] := by
  apply List.filter_eq_nil_iff.mpr
  intro r _
  rcases r with ⟨p, v, l⟩
  cases p <;> simp [isRemovable, removable_packages]

/-- Helper: remove_problematic_packages removes nothing and leaves the
file unchanged. -/
theorem remove_noop (file : List Line) :
    remove_problematic_packages file = (false, file) := by
  unfold remove_problematic_packages
  simp [removed_filter_nil]

/-- The success flag of resolve: true when the first check finds no
conflicts, and otherwise the outcome of the final test. -/
theorem resolve_success_eq (file : List Line) (co fo : PipOutcome) :
    (resolve file co fo).success =
      if (check_for_conflicts ⟨[]⟩ co).1 then test_final_result fo else true := by
  unfold resolve
  by_cases h : (check_for_conflicts ⟨[]⟩ co).1 <;> simp [h]

/-- The final file of resolve: untouched without conflicts, otherwise the
output of the fixing pipeline. -/
theorem resolve_finalFile_eq (file : List Line) (co fo : PipOutcome) :
    (resolve file co fo).finalFile =
      if (check_for_conflicts ⟨[]⟩ co).1 then
        (apply_smart_fixes (remove_problematic_packages file).2).2
      else file := by
  unfold resolve
  by_cases h : (check_for_conflicts ⟨[]⟩ co).1 <;> simp [h]

/-- The step trace of resolve. -/
theorem resolve_trace_eq (file : List Line) (co fo : PipOutcome) :
    (resolve file co fo).trace =
      if (check_for_conflicts ⟨[]⟩ co).1 then
        Event.checkConflicts :: Event.backup ::
          ((if (remove_problematic_packages file).1 then
              [Event.writeFile (remove_problematic_packages file).2] else []) ++
           (if (apply_smart_fixes (remove_problematic_packages file).2).1 then
              [Event.writeFile (apply_smart_fixes (remove_problematic_packages file).2).2]
            else []) ++ [Event.finalTest])
      else [Event.checkConflicts] := by
  unfold resolve
  by_cases h : (check_for_conflicts ⟨[]⟩ co).1 <;> simp [h]

/-- C6: for every outcome of the dry run conflict check, a timeout or an
unexpected exception makes check_for_conflicts report conflicts present;
it never reports success in those cases. -/
theorem check_for_conflicts_conservative (st : ResolverState) (co : PipOutcome)
    (h : co = PipOutcome.timedOut ∨ co = PipOutcome.failed) :
    (check_for_conflicts st co).1 = true := by
  rcases h with h | h <;> subst h <;> rfl

/-- Witness for C6 at the timeout outcome. -/
theorem check_for_conflicts_conservative_witness :
    (check_for_conflicts ⟨[]⟩ PipOutcome.timedOut).1 = true :=
  check_for_conflicts_conservative ⟨[]⟩ PipOutcome.timedOut (Or.inl rfl)

/-- C10: remove_problematic_packages removes no package, returns false and
never writes the requirements file, so the content after the step equals
the content before. -/
theorem remove_problematic_packages_frame (file : List Line) :
    remove_problematic_packages file = (false, file) :=
  remove_noop file

/-- C8: two resolver runs on the same file that differ only in the error
text scraped by parse_conflict_output produce the same rewritten file; the
scraped pairs have no effect on the fixing logic. -/
theorem scraped_pairs_no_effect (file : List Line) (rc : Int) (e1 e2 : Line)
    (fo : PipOutcome) :
    (resolve file (PipOutcome.completed rc e1) fo).finalFile =
    (resolve file (PipOutcome.completed rc e2) fo).finalFile := by
  rw [resolve_finalFile_eq, resolve_finalFile_eq]
  by_cases h : rc == 0 <;> simp [check_for_conflicts, h]

/-- C3: in every execution of resolve, any write of the requirements file
is preceded in the step trace by the backup step; no reachable step
sequence mutates the file before the backup. -/
theorem backup_before_write (file : List Line) (co fo : PipOutcome)
    (i : Nat) (c : List Line)
    (h : (resolve file co fo).trace[i]? = some (Event.writeFile c)) :
    ∃ j, j < i ∧ (resolve file co fo).trace[j]? = some Event.backup := by
  rw [resolve_trace_eq] at h ⊢
  by_cases hc : (check_for_conflicts ⟨[]⟩ co).1
  · rw [if_pos hc] at h ⊢
    match i, h with
    | 0, h => exact absurd h (by simp)
    | 1, h => exact absurd h (by simp)
    | n + 2, _ => exact ⟨1, by omega, by simp⟩
  · rw [if_neg hc] at h
    match i, h with
    | 0, h => exact absurd h (by simp)
    | n + 1, h => exact absurd h (by simp)

/-- Witness for C3: on the C4 scenario file with conflicts reported, the
write at position two is preceded by the backup. -/
theorem backup_before_write_witness :
    ∃ j, j < 2 ∧
      (resolve django_pair_file (PipOutcome.completed 1 [])
        (PipOutcome.completed 0 [])).trace[j]? = some Event.backup :=
  backup_before_write django_pair_file (PipOutcome.completed 1 [])
    (PipOutcome.completed 0 []) 2 django_pair_fixed (by decide)

/-- C4: on a file containing the lines pinning django at 4.0.0 and
djangorestframework at 3.14.0, when the first dry run reports conflicts
the resolver rewrites the two lines to the prescribed versions 5.1.4 and
3.15.2, and the backup step precedes the write in the trace. -/
theorem django_scenario (rc : Int) (e : Line) (fo : PipOutcome) (h : rc ≠ 0) :
    (resolve django_pair_file (PipOutcome.completed rc e) fo).finalFile =
      django_pair_fixed ∧
    (resolve django_pair_file (PipOutcome.completed rc e) fo).trace[1]? =
      some Event.backup ∧
    (resolve django_pair_file (PipOutcome.completed rc e) fo).trace[2]? =
      some (Event.writeFile django_pair_fixed) := by
  have hc : (check_for_conflicts ⟨[]⟩ (PipOutcome.completed rc e)).1 = true := by
    simp [check_for_conflicts, h]
  refine ⟨?_, ?_, ?_⟩
  · rw [resolve_finalFile_eq, if_pos hc]
    decide
  · rw [resolve_trace_eq, if_pos hc]
    decide
  · rw [resolve_trace_eq, if_pos hc]
    decide

/-- Witness for C4 at a concrete failing first dry run and succeeding
final dry run. -/
theorem django_scenario_witness :
    (resolve django_pair_file (PipOutcome.completed 1 [])
      (PipOutcome.completed 0 [])).finalFile = django_pair_fixed ∧
    (resolve django_pair_file (PipOutcome.completed 1 [])
      (PipOutcome.completed 0 [])).trace[1]? = some Event.backup ∧
    (resolve django_pair_file (PipOutcome.completed 1 [])
      (PipOutcome.completed 0 [])).trace[2]? =
      some (Event.writeFile django_pair_fixed) :=
  django_scenario 1 [] (PipOutcome.completed 0 []) (by decide)

/-- C5: the exit status of main is zero exactly when the file exists and
either no conflicts were ever present or the final dry run was reached and
succeeded; it is one otherwise, a missing input file included. -/
theorem main_exit_code_spec (fileExists testOnly : Bool) (file : List Line)
    (co fo : PipOutcome) :
    main_exit_code fileExists testOnly file co fo = 0 ↔
      (fileExists = true ∧
        (conflictsEverPresent fileExists co = false ∨
         finalDryRunSucceeded fileExists testOnly co fo = true)) := by
  unfold main_exit_code conflictsEverPresent finalDryRunSucceeded
  rw [resolve_success_eq]
  cases fileExists <;> cases testOnly <;>
    cases hc : (check_for_conflicts ⟨[]⟩ co).1 <;>
    cases ht : test_final_result fo <;> simp [hc, ht]

/-- A successful last-wins lookup comes from an entry of the dictionary. -/
theorem assocLast_mem (pd : List (Line × Option Line × Line)) (k : Line)
    (v : Option Line) (l : Line) (h : assocLast pd k = some (v, l)) :
    (k, v, l) ∈ pd := by
  induction pd with
  | nil => simp [assocLast] at h
  | cons e rest ih =>
    rcases e with ⟨k2, v2, l2⟩
    unfold assocLast at h
    cases hr : assocLast rest k with
    | some r =>
      rw [hr] at h
      simp only [Option.some.injEq] at h
      subst h
      exact List.mem_cons_of_mem _ (ih hr)
    | none =>
      rw [hr] at h
      by_cases hk : k2 == k
      · rw [if_pos hk] at h
        simp only [Option.some.injEq, Prod.mk.injEq] at h
        obtain ⟨hv, hl⟩ := h
        have hk2 : k2 = k := by simpa using hk
        subst hk2 hv hl
        exact List.mem_cons_self _ _
      · rw [if_neg hk] at h
        exact absurd h (by simp)

/-- An entry of the package dictionary comes from a parsed record with
that name, version and line. -/
theorem dictEntries_mem (records : List ParsedReq) (k : Line) (v : Option Line)
    (l : Line) (h : (k, v, l) ∈ dictEntries records) :
    ∃ r ∈ records, r.1 = some k ∧ r.2.1 = v ∧ r.2.2 = l := by
  unfold dictEntries at h
  rw [List.mem_filterMap] at h
  obtain ⟨r, hr, hfr⟩ := h
  rcases r with ⟨p, pv, pl⟩
  cases p with
  | none => simp at hfr
  | some p =>
    by_cases hp : p.isEmpty
    · simp [hp] at hfr
    · simp only [hp, if_false, Bool.false_eq_true, Option.some.injEq,
        Prod.mk.injEq] at hfr
      obtain ⟨h1, h2, h3⟩ := hfr
      exact ⟨(some p, pv, pl), hr, by simp [h1], h2, h3⟩

/-- C2: when no ecosystem fix is applicable, apply_smart_fixes reports no
fixes and does not write, so the file keeps its exact previous content. -/
theorem no_applicable_fix_no_write (file : List Line) (h : noFixApplicable file) :
    apply_smart_fixes file = (false, file) := by
  have hfn : fixesNeeded (dictEntries (parse_requirements file)) = false := by
    by_contra hb
    rw [Bool.not_eq_false] at hb
    unfold fixesNeeded at hb
    rw [List.any_eq_true] at hb
    obtain ⟨e, he, hee⟩ := hb
    unfold ecosystemNeedsFixes at hee
    rw [Bool.and_eq_true, decide_eq_true_iff, List.any_eq_true] at hee
    obtain ⟨hcount, kv, hkv, hdiff⟩ := hee
    unfold memberDiffers at hdiff
    cases ha : assocLast (dictEntries (parse_requirements file)) kv.1 with
    | none => rw [ha] at hdiff; simp at hdiff
    | some p =>
      rcases p with ⟨cv, cl⟩
      rw [ha] at hdiff
      rw [bne_iff_ne] at hdiff
      have hmem := assocLast_mem _ _ _ _ ha
      obtain ⟨r, hrmem, hr1, hr2, _⟩ := dictEntries_mem _ _ _ _ hmem
      refine h e he ⟨by omega, kv, hkv, r, hrmem, hr1, ?_⟩
      rw [hr2]
      exact hdiff
  unfold apply_smart_fixes
  simp [hfn]

/-- Witness for C2 on a file with a single pinned package outside any
ecosystem group. -/
theorem no_applicable_fix_no_write_witness :
    apply_smart_fixes ["requests==2.31.0".toList, "# c".toList] =
      (false, ["requests==2.31.0".toList, "# c".toList]) :=
  no_applicable_fix_no_write ["requests==2.31.0".toList, "# c".toList]
    (by unfold noFixApplicable ecosystemFixApplicable; decide)

/-- The inner differing-member check as a proposition. -/
theorem memberDiffers_iff (pd : List (Line × Option Line × Line)) (kv : Line × Line) :
    memberDiffers pd kv = true ↔
      ∃ cv cl, assocLast pd kv.1 = some (cv, cl) ∧ cv ≠ some kv.2 := by
  unfold memberDiffers
  cases ha : assocLast pd kv.1 with
  | none => simp
  | some p =>
    rcases p with ⟨cv, cl⟩
    simp only [bne_iff_ne, ne_eq, Option.some.injEq, Prod.mk.injEq]
    constructor
    · intro hd
      exact ⟨cv, cl, ⟨rfl, rfl⟩, hd⟩
    · rintro ⟨cv2, cl2, ⟨h1, h2⟩, hd⟩
      subst h1 h2
      exact hd

/-- The fixes_needed flag as a proposition. -/
theorem fixesNeeded_iff (file : List Line) :
    fixesNeeded (dictEntries (parse_requirements file)) = true ↔
      fixesNeededProp file := by
  unfold fixesNeeded fixesNeededProp ecosystemNeedsFixes
  rw [List.any_eq_true]
  constructor
  · rintro ⟨e, he, hee⟩
    rw [Bool.and_eq_true, decide_eq_true_iff, List.any_eq_true] at hee
    obtain ⟨hc, kv, hkv, hd⟩ := hee
    rw [memberDiffers_iff] at hd
    obtain ⟨cv, cl, ha, hne⟩ := hd
    exact ⟨e, he, by omega, kv, hkv, cv, cl, ha, hne⟩
  · rintro ⟨e, he, hc, kv, hkv, cv, cl, ha, hne⟩
    refine ⟨e, he, ?_⟩
    rw [Bool.and_eq_true, decide_eq_true_iff, List.any_eq_true]
    exact ⟨by omega, kv, hkv, (memberDiffers_iff _ _).mpr ⟨cv, cl, ha, hne⟩⟩

/-- The rebuild pass agrees line by line with the amended rewrite rule. -/
theorem rebuild_parseLine (line : Line) :
    rebuildRecord (parseLine line) = amendedRewriteLine line := by
  unfold parseLine amendedRewriteLine
  by_cases h1 : (pystrip line).isEmpty || startsWithHash (pystrip line)
  · simp only [h1, if_true]
    rfl
  · simp only [h1, if_false, Bool.false_eq_true]
    cases hs : splitEqEq (pystrip line) with
    | none => rfl
    | some pr =>
      rcases pr with ⟨before, after⟩
      unfold rebuildRecord
      cases hf : findFixedVersion (pystrip (before.takeWhile (fun c => c != '['))) with
      | none => simp [hf]
      | some fv =>
        simp only [hf]
        by_cases hv : pystrip after == fv
        · have hv2 : (some (pystrip after) == some fv) = true := by
            simpa using hv
          simp [hv, hv2]
        · have hv2 : (some (pystrip after) == some fv) = false := by
            simpa using hv
          have hne : ¬ pystrip after = fv := by simpa using hv
          by_cases hb : '[' ∈ pystrip line
          · have hbc : (pystrip line).contains '[' = true := by simpa using hb
            simp [hv2, hbc, hb, hs, hne]
          · have hbc : (pystrip line).contains '[' = false := by simpa using hb
            simp [hv2, hbc, hb, hne]

/-- C1 amended: the fix application writes the file exactly when some
ecosystem group has at least two member packages present and a member
whose effective pinned version differs from the table; when it writes,
every line whose stripped text pins any table package, regardless of that
package's group presence count, is re-pinned to the prescribed version
with everything before the separator kept, bracketed extras included, and
every other line appears stripped of surrounding whitespace rather than
verbatim; when it does not write, the file is untouched. -/
theorem apply_smart_fixes_spec (file : List Line) :
    ((apply_smart_fixes file).1 = true ↔ fixesNeededProp file) ∧
    ((apply_smart_fixes file).1 = true →
      (apply_smart_fixes file).2 = file.map amendedRewriteLine) ∧
    ((apply_smart_fixes file).1 = false → (apply_smart_fixes file).2 = file) := by
  have hq : apply_smart_fixes file =
      (fixesNeeded (dictEntries (parse_requirements file)),
       if fixesNeeded (dictEntries (parse_requirements file)) then
         (parse_requirements file).map rebuildRecord
       else file) := rfl
  refine ⟨?_, ?_, ?_⟩
  · rw [show (apply_smart_fixes file).1 =
        fixesNeeded (dictEntries (parse_requirements file)) from rfl]
    exact fixesNeeded_iff file
  · intro h
    have h2 : fixesNeeded (dictEntries (parse_requirements file)) = true := h
    rw [hq]
    simp only [h2, if_true]
    rw [parse_requirements_eq_map, List.map_map]
    exact List.map_congr_left (fun l _ => rebuild_parseLine l)
  · intro h
    have h2 : fixesNeeded (dictEntries (parse_requirements file)) = false := h
    rw [hq]
    simp [h2]

/-- C1 counterexample: in mixed_groups_file the fastapi group has exactly
one member package present, fastapi is a member of no other group, yet the
fix application rewrites the fastapi line to the prescribed version, so a
rewrite is not restricted to packages whose group has two or more members
present. -/
theorem singleton_group_member_rewritten :
    presentCount fastapi_ecosystem
      (dictEntries (parse_requirements mixed_groups_file)) = 1 ∧
    List.lookup "fastapi".toList langchain_ecosystem = none ∧
    List.lookup "fastapi".toList django_ecosystem = none ∧
    (apply_smart_fixes mixed_groups_file).2 =
      ["django==5.1.4".toList, "djangorestframework==3.15.2".toList,
       "fastapi==0.115.4".toList] ∧
    mixed_groups_file[2]? ≠ (apply_smart_fixes mixed_groups_file).2[2]? := by
  refine ⟨by decide, by decide, by decide, by decide, by decide⟩

/-- Witness for the amended C1 on mixed_groups_file: a write is triggered
and the output is the line map of the amended rule. -/
theorem apply_smart_fixes_spec_witness :
    (apply_smart_fixes mixed_groups_file).1 = true ∧
    (apply_smart_fixes mixed_groups_file).2 =
      mixed_groups_file.map amendedRewriteLine :=
  ⟨by decide, (apply_smart_fixes_spec mixed_groups_file).2.1 (by decide)⟩

/-- C7 counterexample: the record of an indented comment line stores the
stripped line, not the raw line, and when the file is rewritten the
comment is emitted stripped rather than passed through unchanged. -/
theorem comment_line_not_verbatim :
    (parse_requirements indented_comment_file)[0]? =
      some (none, none, "# pinned for deployment".toList) ∧
    (apply_smart_fixes indented_comment_file).1 = true ∧
    (apply_smart_fixes indented_comment_file).2[0]? =
      some "# pinned for deployment".toList ∧
    indented_comment_file[0]? = some "  # pinned for deployment".toList ∧
    "# pinned for deployment".toList ≠ "  # pinned for deployment".toList := by
  refine ⟨by decide, by decide, by decide, by decide, by decide⟩

/-- C7 amended: the parser yields one record per input line in file order;
a line whose stripped text is non-blank, is no comment and contains the
separator yields the name before the separator with bracketed extras and
whitespace stripped, the stripped version, and the stripped line; blank
and comment lines yield a record with no package name and are passed into
any rewritten output stripped of surrounding whitespace; any other line
without the separator also yields no package name. -/
theorem parse_requirements_spec (file : List Line) :
    (parse_requirements file).length = file.length ∧
    (∀ i : Nat, (parse_requirements file)[i]? = (file[i]?).map parseLine) ∧
    (∀ line : Line, pystrip line = [] ∨ startsWithHash (pystrip line) = true →
      parseLine line = (none, none, pystrip line) ∧
      rebuildRecord (parseLine line) = pystrip line) ∧
    (∀ line : Line, splitEqEq (pystrip line) = none →
      (parseLine line).1 = none) ∧
    (∀ line : Line, ∀ b a : Line, pystrip line ≠ [] →
      startsWithHash (pystrip line) = false →
      splitEqEq (pystrip line) = some (b, a) →
      parseLine line =
        (some (pystrip (b.takeWhile (fun c => c != '['))), some (pystrip a),
         pystrip line)) := by
  refine ⟨?_, ?_, ?_, ?_, ?_⟩
  · rw [parse_requirements_eq_map]
    simp
  · intro i
    rw [parse_requirements_eq_map]
    simp
  · intro line hl
    have hcond : (List.isEmpty (pystrip line) || startsWithHash (pystrip line)) = true := by
      rcases hl with hl | hl
      · simp [hl]
      · simp [hl]
    have hp : parseLine line = (none, none, pystrip line) := by
      unfold parseLine
      simp only [hcond, if_true]
    exact ⟨hp, by rw [hp]; rfl⟩
  · intro line hl
    unfold parseLine
    by_cases hcond : (List.isEmpty (pystrip line) || startsWithHash (pystrip line))
    · simp [hcond]
    · simp only [hcond, Bool.false_eq_true, if_false, hl]
  · intro line b a hne hhash hsplit
    have hcond : (List.isEmpty (pystrip line) || startsWithHash (pystrip line)) = false := by
      simp [hhash, List.isEmpty_iff, hne]
    unfold parseLine
    simp only [hcond, Bool.false_eq_true, if_false, hsplit]

/-- Witness for the amended C7 on an indented comment line. -/
theorem parse_requirements_spec_witness :
    parseLine "  # note".toList = (none, none, pystrip "  # note".toList) ∧
    rebuildRecord (parseLine "  # note".toList) = pystrip "  # note".toList :=
  (parse_requirements_spec []).2.2.1 "  # note".toList (Or.inr (by decide))

/-- A character of a stripped line is a character of the line. -/
theorem mem_of_mem_pystrip {c : Char} {l : Line} (h : c ∈ pystrip l) : c ∈ l := by
  unfold pystrip at h
  rw [List.mem_reverse] at h
  have h2 := (List.dropWhile_sublist isPySpace).subset h
  rw [List.mem_reverse] at h2
  exact (List.dropWhile_sublist isPySpace).subset h2

/-- A parsed package name contains no open bracket, because the parser
cuts the name at the first open bracket. -/
theorem parsed_name_no_bracket (line : Line) (p : Line)
    (h : (parseLine line).1 = some p) : '[' ∉ p := by
  intro hc
  unfold parseLine at h
  by_cases h1 : (List.isEmpty (pystrip line) || startsWithHash (pystrip line))
  · simp [h1] at h
  · simp only [h1, Bool.false_eq_true, if_false] at h
    cases hs : splitEqEq (pystrip line) with
    | none => rw [hs] at h; simp at h
    | some pr =>
      rcases pr with ⟨before, after⟩
      rw [hs] at h
      simp only [Option.some.injEq] at h
      subst h
      have := List.mem_takeWhile_imp (mem_of_mem_pystrip hc)
      simp at this

/-- A prescribed version found by the rebuild lookup belongs to one of the
three concrete ecosystems, paired with the searched package name. -/
theorem findFixedVersion_mem (p v : Line) (h : findFixedVersion p = some v) :
    (p, v) ∈ langchain_ecosystem ∨ (p, v) ∈ django_ecosystem ∨
    (p, v) ∈ fastapi_ecosystem := by
  unfold findFixedVersion at h
  obtain ⟨e, he, hle⟩ := List.exists_of_findSome?_eq_some h
  rw [List.lookup_eq_some_iff] at hle
  obtain ⟨l1, l2, heq, _⟩ := hle
  have hmem : (p, v) ∈ e.2 := by
    rw [heq]
    exact List.mem_append_right _ (List.mem_cons_self _ _)
  have he2 := he
  simp only [known_combinations, List.mem_cons, List.mem_singleton,
    List.not_mem_nil] at he2
  rcases he2 with h1 | h1 | h1 | h1
  · left; rw [h1] at hmem; exact hmem
  · right; left; rw [h1] at hmem; exact hmem
  · right; right; rw [h1] at hmem; exact hmem
  · exact absurd h1 (by simp)

/-- C9: the parsed name of a dependency line never equals the table key
uvicorn[standard], and the rebuild lookup for a parsed name never yields
the prescribed version 0.32.0 of that entry, so no line is ever rewritten
on account of it. -/
theorem uvicorn_entry_never_applied (line : Line) (p : Line)
    (h : (parseLine line).1 = some p) :
    p ≠ "uvicorn[standard]".toList ∧
    findFixedVersion p ≠ some "0.32.0".toList := by
  have hnb := parsed_name_no_bracket line p h
  constructor
  · intro he
    rw [he] at hnb
    exact hnb (by decide)
  · intro hf
    rcases findFixedVersion_mem p "0.32.0".toList hf with hm | hm | hm
    · simp only [langchain_ecosystem, List.mem_cons, Prod.mk.injEq,
        List.not_mem_nil, or_false] at hm
      rcases hm with ⟨_, hv⟩ | ⟨_, hv⟩ | ⟨_, hv⟩ | ⟨_, hv⟩ <;>
        exact absurd hv (by decide)
    · simp only [django_ecosystem, List.mem_cons, Prod.mk.injEq,
        List.not_mem_nil, or_false] at hm
      rcases hm with ⟨_, hv⟩ | ⟨_, hv⟩ | ⟨_, hv⟩ | ⟨_, hv⟩ <;>
        exact absurd hv (by decide)
    · simp only [fastapi_ecosystem, List.mem_cons, Prod.mk.injEq,
        List.not_mem_nil, or_false] at hm
      rcases hm with ⟨_, hv⟩ | ⟨hp, _⟩ | ⟨_, hv⟩
      · exact absurd hv (by decide)
      · rw [hp] at hnb
        exact hnb (by decide)
      · exact absurd hv (by decide)

/-- Witness for C9 on a pinned uvicorn line carrying the standard extra. -/
theorem uvicorn_entry_never_applied_witness :
    "uvicorn".toList ≠ "uvicorn[standard]".toList ∧
    findFixedVersion "uvicorn".toList ≠ some "0.32.0".toList :=
  uvicorn_entry_never_applied "uvicorn[standard]==0.30.0".toList
    "uvicorn".toList (by decide)
